import Mathlib

/-!
Verification development for the DKI (diffusion kurtosis imaging) module
`src/dipy/reconst/dki.py`.  Each Python function used by the claims is
shallowly embedded as a Lean definition; machine floats are modelled as
exact rationals/reals, numpy's elementwise conditional assignments are
modelled scalar-wise, and Python exceptions are modelled with `Except`.
The embedding additionally instruments every division that the Python code
evaluates with a boolean flag recording whether its denominator was zero
(numpy emits a warning and continues in that situation, so the value flow
continues past such a division; the flag makes the event observable).
-/

namespace DKI

/-- Python exception kinds raised (or claimed to be raised) by the module. -/
inductive PyErr where
  | typeError
  | valueError
  | keyError
  | domainError
deriving DecidableEq, Repr

/-! ### Kurtosis tensor construction (`Wcons`, lines 537-592)

`Wcons` builds the dense 3×3×3×3 kurtosis tensor from the 15 independent
elements through a dictionary keyed by the product
`(i+1)*(j+1)*(k+1)*(l+1)`.  In the source, *every* one of the 15 dictionary
keys maps to `k_elements[0]` (lines 566-580). -/

/-- The dictionary `indep_ele` of lines 566-580: keys
1, 16, 81, 2, 3, 8, 24, 27, 54, 4, 9, 36, 6, 12, 18 — each bound to
`k_elements[0]`.  A missing key would raise `KeyError` (`none` here); the
lemma `indep_ele_isSome` below shows every evaluated key is present. -/
def indep_ele (k_elements : Fin 15 → ℚ) : ℕ → Option ℚ := fun key =>
  if key = 1 ∨ key = 16 ∨ key = 81 ∨ key = 2 ∨ key = 3 ∨ key = 8 ∨ key = 24 ∨ key = 27
     ∨ key = 54 ∨ key = 4 ∨ key = 9 ∨ key = 36 ∨ key = 6 ∨ key = 12 ∨ key = 18
  then some (k_elements 0) else none

/-- `Wcons(k_elements)` (lines 537-592): `W[i][j][k][l] = indep_ele[key]`
with `key = (i+1)*(j+1)*(k+1)*(l+1)`.  Every product of four factors from
{1,2,3} is one of the 15 dictionary keys, so the lookup never raises; the
`getD 0` default is never reached (see `indep_ele_isSome`). -/
def Wcons (k_elements : Fin 15 → ℚ) : Fin 3 → Fin 3 → Fin 3 → Fin 3 → ℚ :=
  fun i j k l =>
    (indep_ele k_elements
      (((i : ℕ) + 1) * ((j : ℕ) + 1) * ((k : ℕ) + 1) * ((l : ℕ) + 1))).getD 0

/-- The fifteen representative index quadruples of claim C2, one per
symmetry class (this is also the default index set of `Wrotate`,
lines 471-475). -/
def kt_indices : Fin 15 → Fin 3 × Fin 3 × Fin 3 × Fin 3 := fun m =>
  match m with
  | 0 => (0, 0, 0, 0)
  | 1 => (1, 1, 1, 1)
  | 2 => (2, 2, 2, 2)
  | 3 => (0, 0, 0, 1)
  | 4 => (0, 0, 0, 2)
  | 5 => (0, 1, 1, 1)
  | 6 => (1, 1, 1, 2)
  | 7 => (0, 2, 2, 2)
  | 8 => (1, 2, 2, 2)
  | 9 => (0, 0, 1, 1)
  | 10 => (0, 0, 2, 2)
  | 11 => (1, 1, 2, 2)
  | 12 => (0, 0, 1, 2)
  | 13 => (0, 1, 1, 2)
  | 14 => (0, 1, 2, 2)

/-- Reading back one representative dense-tensor entry per symmetry class
after expanding the 15 components with `Wcons` (the round trip of claim
C2). -/
def readback (kt : Fin 15 → ℚ) : Fin 15 → ℚ := fun m =>
  Wcons kt (kt_indices m).1 (kt_indices m).2.1 (kt_indices m).2.2.1 (kt_indices m).2.2.2

/-! ### `Wrotate` (lines 428-486)

After building the default index set and the dense tensor, the loop header
is `for e in range(inds)` (line 482).  `inds` is a list/array of index
quadruples, not an integer, so `range` raises `TypeError` on every call;
no element is ever computed.  (`_Wrotate_element`, lines 489-534, is
consequently unreachable; its summand is in any case split across a
statement boundary at lines 531-532 and reads
`W4D[ind_i][ind_j][ind_k][ind_l]`, not `W4D[il][jl][kl][ll]`.) -/

/-- The default 15-row index set of lines 471-475. -/
def default_inds : List (List ℕ) :=
  [[0, 0, 0, 0], [1, 1, 1, 1], [2, 2, 2, 2],
   [0, 0, 0, 1], [0, 0, 0, 2], [0, 1, 1, 1],
   [1, 1, 1, 2], [0, 2, 2, 2], [1, 2, 2, 2],
   [0, 0, 1, 1], [0, 0, 2, 2], [1, 1, 2, 2],
   [0, 0, 1, 2], [0, 1, 1, 2], [0, 1, 2, 2]]

/-- Python's `range` applied to a list of index quadruples (line 482):
`range` only accepts integers, so this always raises `TypeError`; there is
no successful outcome, hence the `Empty` payload. -/
def np_range_of_list (inds : List (List ℕ)) : Except PyErr Empty :=
  Except.error PyErr.typeError

/-- `Wrotate(kt, Basis, inds)` (lines 428-486).  The body sets the default
index set, allocates `Wrot`, expands the dense tensor with `Wcons`, and
then crashes at `for e in range(inds)`. -/
def Wrotate (kt : Fin 15 → ℚ) (Basis : Fin 3 → Fin 3 → ℚ)
    (inds : Option (List (List ℕ))) : Except PyErr (List ℚ) :=
  let indsv := inds.getD default_inds
  -- Wrot = np.zeros(len(inds)); W4D = Wcons(kt)
  let _W4D := Wcons kt
  -- for e in range(inds):  -- `range` of a list raises TypeError
  (np_range_of_list indsv).bind Empty.elim

/-! ### `split_dki_param` and `mean_kurtosis` (lines 324-425, 595-603) -/

/-- `split_dki_param` (lines 595-603) is an unimplemented stub: it ignores
its input and returns the placeholder strings `'WIP1'`, `'WIP2'`,
`'WIP3'`. -/
def split_dki_param (dki_params : List ℚ) : String × String × String :=
  ("WIP1", "WIP2", "WIP3")

/-- `np.zeros(n, 15)` as called on line 402: the second positional argument
of `np.zeros` is the dtype, and the integer `15` is not interpretable as a
numpy dtype, so the call always raises `TypeError` (hence the `Empty`
payload: no successful outcome exists). -/
def np_zeros_int_dtype (shape : ℕ) (dtypeArg : ℕ) : Except PyErr Empty :=
  Except.error PyErr.typeError

/-- `mean_kurtosis(dki_params)` (lines 324-425).  Execution reaches
`evals, evecs, kt = split_dki_param(dki_params)` (strings), then
`Wxxxx = np.zeros(len(kt), 15)` with `len('WIP3') = 4`, which raises
`TypeError`.  The remaining statements (the per-voxel `Wrotate` loop,
lines 409-415, and the `F1m`/`F2m` combination, lines 418-423 — a sum that
is in any case split into six separate statements, so only the first term
would ever be assigned to `MeanKurt`) are unreachable. -/
def mean_kurtosis (dki_params : List ℚ) : Except PyErr ℚ :=
  let kt := (split_dki_param dki_params).2.2
  (np_zeros_int_dtype kt.length 15).bind Empty.elim

/-! ### Carlson elliptic integrals (`rdpython` lines 30-85, `rfpython` lines 88-135)

Neither function contains a `raise` statement or any bounds/sign check:
the machine-constant bounds `lolim`/`uplim` are computed and never used.
The duplication loop runs until the normalized deviations fall below
`errtol`; it is modelled with an explicit fuel argument (the Python loop
is unbounded), `none` standing for "still iterating after `fuel` checks".
The first component of the result is the division-by-zero flag described
at the top of the file. -/

/-- Division-by-zero detector: `dz d` is `true` exactly when a division by
`d` performed by the Python code has a zero denominator. -/
noncomputable def dz (d : ℝ) : Bool := if d = 0 then true else false

/-- `d1mach[0] = 1.1*10**(-308)` (line 35 / 93). -/
noncomputable def d1mach0 : ℝ := 1.1 * (10 : ℝ) ^ (-308 : ℤ)

/-- `d1mach[1] = 8.9e307` (line 36 / 94). -/
noncomputable def d1mach1 : ℝ := 8.9e307

/-- `d1mach[2] = 0.22204460*10**(-15)` (line 37 / 95). -/
noncomputable def d1mach2 : ℝ := 0.22204460 * (10 : ℝ) ^ (-15 : ℤ)

/-- `d1mach[3] = 0.4440*10**(-15)` (line 38 / 96). -/
noncomputable def d1mach3 : ℝ := 0.4440 * (10 : ℝ) ^ (-15 : ℤ)

/-- `d1mach[4] = np.log(2.0)` (line 39 / 97). -/
noncomputable def d1mach4 : ℝ := Real.log 2

/-- `errtol = (d1mach[2]/3.0)**(1.0/6.0)` (line 40 / 98). -/
noncomputable def errtol : ℝ := (d1mach2 / 3) ^ ((1 : ℝ) / 6)

/-- `lolim = 2.0/(d1mach[1])**(2.0/3.0)` (line 41 / 99); computed and never
used by either function. -/
noncomputable def lolim : ℝ := 2 / d1mach1 ^ ((2 : ℝ) / 3)

/-- First assignment `tuplim = d1mach[0]**(1.0/3.0)` (line 42 / 100). -/
noncomputable def tuplim0 : ℝ := d1mach0 ^ ((1 : ℝ) / 3)

/-- Second assignment `tuplim = (0.10*errtol)**(1.0/3.0)/tuplim`
(line 43 / 101); computed and never used. -/
noncomputable def tuplim : ℝ := (0.10 * errtol) ^ ((1 : ℝ) / 3) / tuplim0

/-- `uplim = tuplim**2.0` (line 44 / 102); computed and never used. -/
noncomputable def uplim : ℝ := tuplim ^ (2 : ℝ)

/-- `c1 = 3.0/14.0` (line 45 / 103). -/
noncomputable def c1 : ℝ := 3 / 14

/-- `c2 = 1.0/6.0` (line 46 / 104). -/
noncomputable def c2 : ℝ := 1 / 6

/-- `c3 = 9.0/22.0` (line 47 / 105). -/
noncomputable def c3 : ℝ := 9 / 22

/-- `c4 = 3.0/26.0` (line 48 / 106). -/
noncomputable def c4 : ℝ := 3 / 26

/-- Division-by-zero flags of the constant-setup prelude shared by
`rdpython` and `rfpython` (lines 34-48 / 92-106): denominators `3.0`
(`errtol`), `d1mach[1]**(2/3)` (`lolim`), `tuplim` (second `tuplim`
assignment), and the literal fraction denominators `14`, `6`, `22`, `26`
of `c1`-`c4` and of the exponents. -/
noncomputable def setupDz : Bool :=
  dz 3 || dz (d1mach1 ^ ((2 : ℝ) / 3)) || dz tuplim0 || dz 14 || dz 6 || dz 22 || dz 26

/-- The `while` loop of `rfpython` (lines 112-129) together with the final
Taylor correction (lines 131-135).  Each recursive step models one
evaluation of the loop condition: compute `mu` and the deviations, test
`epslon >= errtol`; if the test holds perform the duplication update and
continue, otherwise evaluate the correction polynomial and return
`s/sqrt(mu)`.  `f` accumulates the division-by-zero flag. -/
noncomputable def rfLoop : ℕ → ℝ → ℝ → ℝ → Bool → Bool × Option ℝ
  | 0, _, _, _, f => (f, none)
  | Nat.succ n, xn, yn, zn, f =>
    let mu := (xn + yn + zn) / 3
    let xndev := 2 - (mu + xn) / mu
    let yndev := 2 - (mu + yn) / mu
    let zndev := 2 - (mu + zn) / mu
    let f1 := f || dz 3 || dz mu
    let epslon := max |xndev| (max |yndev| |zndev|)
    if errtol ≤ epslon then
      let xnroot := Real.sqrt xn
      let ynroot := Real.sqrt yn
      let znroot := Real.sqrt zn
      let lamda := xnroot * (ynroot + znroot) + ynroot * znroot
      rfLoop n ((xn + lamda) * 0.25) ((yn + lamda) * 0.25) ((zn + lamda) * 0.25) f1
    else
      let e2 := xndev * yndev - zndev * zndev
      let e3 := xndev * yndev * zndev
      let s := 1 + (c1 * e2 - 0.10 - c2 * e3) * e2 + c3 * e3
      (f1 || dz (Real.sqrt mu), some (s / Real.sqrt mu))

/-- `rfpython(x, y, z)` (lines 88-135): constant setup, then the
duplication loop.  There is no input validation and no `raise`: the
function can only return a value (or, in exact arithmetic, keep
iterating — `none` when `fuel` loop-condition checks are exhausted). -/
noncomputable def rfpython (fuel : ℕ) (x y z : ℝ) : Bool × Option ℝ :=
  rfLoop fuel x y z setupDz

/-- The `while` loop of `rdpython` (lines 61-75) with the accumulated sum
`sigma`, the shrinking factor `power4`, and the final correction
(lines 77-85).  Same conventions as `rfLoop`. -/
noncomputable def rdLoop : ℕ → ℝ → ℝ → ℝ → ℝ → ℝ → Bool → Bool × Option ℝ
  | 0, _, _, _, _, _, f => (f, none)
  | Nat.succ n, xn, yn, zn, sigma, power4, f =>
    let mu := (xn + yn + 3 * zn) * 0.20
    let xndev := (mu - xn) / mu
    let yndev := (mu - yn) / mu
    let zndev := (mu - zn) / mu
    let f1 := f || dz mu
    let epslon := max |xndev| (max |yndev| |zndev|)
    if errtol ≤ epslon then
      let xnroot := Real.sqrt xn
      let ynroot := Real.sqrt yn
      let znroot := Real.sqrt zn
      let lamda := xnroot * (ynroot + znroot) + ynroot * znroot
      let f2 := f1 || dz (znroot * (zn + lamda))
      rdLoop n ((xn + lamda) * 0.25) ((yn + lamda) * 0.25) ((zn + lamda) * 0.25)
        (sigma + power4 / (znroot * (zn + lamda))) (power4 * 0.25) f2
    else
      let ea := xndev * yndev
      let eb := zndev * zndev
      let ec := ea - eb
      let ed := ea - 6 * eb
      let ef := ed + ec + ec
      let s1 := ed * (-c1 + 0.250 * c3 * ed - 1.50 * c4 * zndev * ef)
      let s2 := zndev * (c2 * ef + zndev * (-c3 * ec + zndev * c4 * ea))
      (f1 || dz (mu * Real.sqrt mu),
        some (3 * sigma + power4 * (1 + s1 + s2) / (mu * Real.sqrt mu)))

/-- `rdpython(x, y, z)` (lines 30-85): constant setup, `sigma = 0`,
`power4 = 1`, then the duplication loop.  No input validation, no
`raise`. -/
noncomputable def rdpython (fuel : ℕ) (x y z : ℝ) : Bool × Option ℝ :=
  rdLoop fuel x y z 0 1 setupDz

/-! ### Closed-form kurtosis coefficients (lines 138-290)

`A1111`, `A2233`, `C2222`, `C2233` are vectorized in the source: a result
array is initialized with a constant and then conditionally overwritten
index-wise by each `indexesxcond*` mask, each guarded by
`if np.sum(mask) != 0`.  Scalar-wise this is: evaluate a block exactly
when its condition holds for the given triple, later assignments
overwriting earlier ones.  The masks of `A1111` are: cond1
`all>0 ∧ a≠b ∧ b≠c` (general formula), cond2 `all>0 ∧ a=b ∧ b≠c`,
cond3 `all>0 ∧ a=c ∧ a≠b`, cond4 `any≤0`.  cond1 and cond3 can hold
together (`a = c ≠ b`): then both blocks execute — cond1's divisions
(including division by `18*(a-b)*(a-c) = 0`) are evaluated, and cond3's
assignment wins. -/

/-- `alpha(a)` (lines 138-143): `(1/sqrt(|a|)) * arctan(sqrt(|a|))`, with
its division-by-zero flag. -/
noncomputable def alpha (a : ℝ) : Bool × ℝ :=
  (dz (Real.sqrt |a|), 1 / Real.sqrt |a| * Real.arctan (Real.sqrt |a|))

/-- `A2233(a, b, c)` (lines 183-220).  Result array initialized to `1/15`;
cond1 `all>0 ∧ b≠c` evaluates the general formula (with `rfpython` and
`rdpython` at `(a/b, a/c, 1)`); cond2 `all>0 ∧ b=c ∧ a≠b` evaluates the
`alpha`-based branch; cond3 `any≤0` assigns `0`.  The flag component
collects the denominators of the executed block(s); the value is `none`
exactly when an executed elliptic-integral call is still iterating at the
given fuel. -/
noncomputable def A2233 (fuel : ℕ) (a b c : ℝ) : Bool × Option ℝ :=
  let base := dz 15
  if (0 < a ∧ 0 < b ∧ 0 < c) ∧ b ≠ c then
    let d := (a + b + c) ^ 2 / (3 * (b - c) ^ 2)
    let e := (b + c) / Real.sqrt (b * c)
    let fr := rfpython fuel (a / b) (a / c) 1
    let g := (2 * a - b - c) / (3 * Real.sqrt (b * c))
    let hr := rdpython fuel (a / b) (a / c) 1
    let flag := base || dz (3 * (b - c) ^ 2) || dz (Real.sqrt (b * c)) || dz b || dz c
      || fr.1 || dz (3 * Real.sqrt (b * c)) || hr.1 || dz 6
    (flag,
      match fr.2, hr.2 with
      | some fv, some hv => some (1 / 6 * d * (e * fv + g * hv - 2))
      | _, _ => none)
  else if (0 < a ∧ 0 < b ∧ 0 < c) ∧ b = c ∧ a ≠ b then
    let d := (a + 2 * c) ^ 2 / (144 * c ^ 2 * (a - c) ^ 2)
    let e := c * (a + 2 * c)
    let f := a * (a - 4 * c)
    let g := alpha (1 - a / c)
    (base || dz (144 * c ^ 2 * (a - c) ^ 2) || dz c || g.1, some (d * (e + f * g.2)))
  else if a ≤ 0 ∨ b ≤ 0 ∨ c ≤ 0 then
    (base, some 0)
  else
    (base, some (1 / 15))

/-- `A1111(a, b, c)` (lines 146-180).  Result array initialized to `1/5`;
cond1-cond4 as described above.  In the `a = c ≠ b` overlap both the
cond1 block (its divisions included) and the cond3 assignment execute. -/
noncomputable def A1111 (fuel : ℕ) (a b c : ℝ) : Bool × Option ℝ :=
  let base := dz 5
  if (0 < a ∧ 0 < b ∧ 0 < c) ∧ a ≠ b ∧ b ≠ c then
    let d := (a + b + c) ^ 2 / (18 * (a - b) * (a - c))
    let e := Real.sqrt (b * c) / a
    let fr := rfpython fuel (a / b) (a / c) 1
    let g := (3 * a ^ 2 - a * b - a * c - b * c) / (3 * a * Real.sqrt (b * c))
    let hr := rdpython fuel (a / b) (a / c) 1
    let flag1 := base || dz (18 * (a - b) * (a - c)) || dz a || dz b || dz c
      || fr.1 || dz (3 * a * Real.sqrt (b * c)) || hr.1
    if a = c then
      -- indexesxcond3 also holds; its assignment overwrites cond1's value
      let d3 := A2233 fuel b a a
      (flag1 || d3.1, d3.2.map fun v => 3 * v)
    else
      (flag1,
        match fr.2, hr.2 with
        | some fv, some hv => some (d * (e * fv + g * hv - 1))
        | _, _ => none)
  else if (0 < a ∧ 0 < b ∧ 0 < c) ∧ a = b ∧ b ≠ c then
    let d2 := A2233 fuel c a a
    (base || d2.1, d2.2.map fun v => 3 * v)
  else if (0 < a ∧ 0 < b ∧ 0 < c) ∧ a = c ∧ a ≠ b then
    let d3 := A2233 fuel b a a
    (base || d3.1, d3.2.map fun v => 3 * v)
  else if a ≤ 0 ∨ b ≤ 0 ∨ c ≤ 0 then
    (base, some 0)
  else
    (base, some (1 / 5))

/-- `C2222(a, b, c)` (lines 223-240).  Result array initialized to zeros;
cond1 `all>0` assigns `(a+2b)²/(24b²)`; cond2 `all>0 ∧ b≠c` overwrites
with the general formula (cond1's division still evaluated); cond3
`any≤0` assigns `0`. -/
noncomputable def C2222 (a b c : ℝ) : Bool × ℝ :=
  if 0 < a ∧ 0 < b ∧ 0 < c then
    if b ≠ c then
      (dz (24 * b ^ 2) || dz (18 * b * (b - c) ^ 2) || dz (Real.sqrt (b * c)),
        (a + b + c) ^ 2 / (18 * b * (b - c) ^ 2)
          * (2 * b + (c ^ 2 - 3 * b * c) / Real.sqrt (b * c)))
    else
      (dz (24 * b ^ 2), (a + 2 * b) ^ 2 / (24 * b ^ 2))
  else
    (false, 0)

/-- `C2233(a, b, c)` (lines 243-261).  Same structure as `C2222` with
denominators `12b²`, `3(b-c)²` and `sqrt(bc)`. -/
noncomputable def C2233 (a b c : ℝ) : Bool × ℝ :=
  if 0 < a ∧ 0 < b ∧ 0 < c then
    if b ≠ c then
      (dz (12 * b ^ 2) || dz (3 * (b - c) ^ 2) || dz (Real.sqrt (b * c)),
        (a + b + c) ^ 2 / (3 * (b - c) ^ 2) * ((b + c) / Real.sqrt (b * c) - 2))
    else
      (dz (12 * b ^ 2), (a + 2 * b) ^ 2 / (12 * b ^ 2))
  else
    (false, 0)

/-- `F1m(a, b, c) = A1111(a, b, c)` (lines 264-269). -/
noncomputable def F1m (fuel : ℕ) (a b c : ℝ) : Bool × Option ℝ := A1111 fuel a b c

/-- `F2m(a, b, c) = 6*A2233(a, b, c)` (lines 272-276). -/
noncomputable def F2m (fuel : ℕ) (a b c : ℝ) : Bool × Option ℝ :=
  ((A2233 fuel a b c).1, (A2233 fuel a b c).2.map fun v => 6 * v)

/-- `G1m(a, b, c) = C2222(a, b, c)` (lines 279-283). -/
noncomputable def G1m (a b c : ℝ) : Bool × ℝ := C2222 a b c

/-- `G2m(a, b, c) = 6*C2233(a, b, c)` (lines 286-290). -/
noncomputable def G2m (a b c : ℝ) : Bool × ℝ := ((C2233 a b c).1, 6 * (C2233 a b c).2)

/-! ### `radial_kurtosis` (lines 642-685)

The destructuring on line 682 reads
`[W_xxxx, W_yyyy, W_zzzz, W_xxyy, W_xxzz, W_yyzz] =
 [Wrotat[...,0], Wrotat[...,1], Wrotat[...,1], Wrotat[...,3],
  Wrotat[...,4], Wrotat[...,5]]`
— `W_zzzz` is taken from position 1 (the `W_yyyy` slot); position 2 is
never read. -/

/-- `radial_kurtosis(evals, Wrotat)` (lines 642-685), with the position-1
read for `W_zzzz` exactly as in the source. -/
noncomputable def radial_kurtosis (evals : Fin 3 → ℝ) (Wrotat : Fin 6 → ℝ) : Bool × ℝ :=
  let W_yyyy := Wrotat 1
  let W_zzzz := Wrotat 1
  let W_yyzz := Wrotat 5
  let g1a := G1m (evals 0) (evals 1) (evals 2)
  let g1b := G1m (evals 0) (evals 2) (evals 1)
  let g2 := G2m (evals 0) (evals 1) (evals 2)
  (g1a.1 || g1b.1 || g2.1, g1a.2 * W_yyyy + g1b.2 * W_zzzz + g2.2 * W_yyzz)

/-- The radial-kurtosis combination exactly as claim C5 states it (the
function's own parameter documentation and `K_r` formula): `G1`/`G2`
applied to `Wyyyy` at position 1, `Wzzzz` at position 2 and `Wyyzz` at
position 5.  Written from the claim's words, to be compared with the
source embedding `radial_kurtosis`. -/
noncomputable def radial_kurtosis_claimed (evals : Fin 3 → ℝ) (Wrotat : Fin 6 → ℝ) : ℝ :=
  (G1m (evals 0) (evals 1) (evals 2)).2 * Wrotat 1
    + (G1m (evals 0) (evals 2) (evals 1)).2 * Wrotat 2
    + (G2m (evals 0) (evals 1) (evals 2)).2 * Wrotat 5

/-! ### Per-voxel least-squares fits (lines 1044-1285)

`_ols_iter`/`_wls_iter` call two functions imported from
`dipy.reconst.dti`, which is not under `src/`:
`from_lower_triangular` (build the symmetric 3×3 tensor from the first six
regression coefficients) and `decompose_tensor` (eigen-decompose, sort
descending, clip at `min_diffusivity`).  Their composition is taken here
as an explicit function parameter `decompose` mapping the six
lower-triangular elements and the floor to the pair
(floored eigenvalues, eigenvector matrix); the claims are settled for
every such function.  Likewise `np.linalg.pinv` is taken as a parameter.
Matrices are functions on `Fin`-indices; `g` is the number of
measurements. -/

/-- `_ols_iter(inv_design, sig, min_signal, min_diffusivity)`
(lines 1105-1156): clamp the signal at `min_signal`, take logs, apply the
pseudo-inverted design matrix, split the 22-vector into 6 diffusion and 15
kurtosis coefficients, decompose the tensor, divide the kurtosis
coefficients by the squared mean eigenvalue, and concatenate
`(evals, evecs[0], evecs[1], evecs[2], KT_elements)`. -/
noncomputable def ols_iter (g : ℕ) (inv_design : Fin 22 → Fin g → ℝ) (sig : Fin g → ℝ)
    (min_signal min_diffusivity : ℝ)
    (decompose : (Fin 6 → ℝ) → ℝ → (Fin 3 → ℝ) × (Fin 3 → Fin 3 → ℝ)) : Fin 27 → ℝ :=
  let log_s : Fin g → ℝ := fun i => Real.log (max (sig i) min_signal)
  let result : Fin 22 → ℝ := fun r => ∑ i, inv_design r i * log_s i
  let DT_elements : Fin 6 → ℝ := fun j => result (Fin.castLE (by omega) j)
  let ed := decompose DT_elements min_diffusivity
  let evals := ed.1
  let evecs := ed.2
  let MD_square := ((evals 0 + evals 1 + evals 2) / 3) ^ 2
  let KT_elements : Fin 15 → ℝ := fun j => result ⟨6 + (j : ℕ), by omega⟩ / MD_square
  fun k =>
    if hk : (k : ℕ) < 3 then evals ⟨k, hk⟩
    else if hk2 : (k : ℕ) < 12 then
      evecs ⟨((k : ℕ) - 3) / 3, by omega⟩ ⟨((k : ℕ) - 3) % 3, by omega⟩
    else KT_elements ⟨(k : ℕ) - 12, by omega⟩

/-- The OLS regression solution `result = inv_design · log(max(sig,
min_signal))` of line 1141, named so the claims can refer to it. -/
noncomputable def ols_solution (g : ℕ) (inv_design : Fin 22 → Fin g → ℝ) (sig : Fin g → ℝ)
    (min_signal : ℝ) : Fin 22 → ℝ :=
  fun r => ∑ i, inv_design r i * Real.log (max (sig i) min_signal)

/-- The floored eigenvalues obtained by `_ols_iter` (line 1145): apply the
external decomposition to the first six entries of the OLS solution. -/
noncomputable def ols_evals (g : ℕ) (inv_design : Fin 22 → Fin g → ℝ) (sig : Fin g → ℝ)
    (min_signal min_diffusivity : ℝ)
    (decompose : (Fin 6 → ℝ) → ℝ → (Fin 3 → ℝ) × (Fin 3 → Fin 3 → ℝ)) : Fin 3 → ℝ :=
  (decompose (fun j => ols_solution g inv_design sig min_signal (Fin.castLE (by omega) j))
    min_diffusivity).1

/-- `evals.mean(0)` for a 3-vector of eigenvalues (lines 1149, 1278). -/
noncomputable def evals_mean (evals : Fin 3 → ℝ) : ℝ := (evals 0 + evals 1 + evals 2) / 3

/-- `_wls_iter(design_matrix, inv_design, sig, min_signal,
min_diffusivity)` (lines 1222-1285): OLS solution first, weights
`W = diag(exp(2·A·ols_result))`, weighted normal equations solved through
`pinv22 (AᵀWA)`, then the same tail as `_ols_iter`. -/
noncomputable def wls_iter (g : ℕ) (A : Fin g → Fin 22 → ℝ) (inv_design : Fin 22 → Fin g → ℝ)
    (sig : Fin g → ℝ) (min_signal min_diffusivity : ℝ)
    (pinv22 : (Fin 22 → Fin 22 → ℝ) → Fin 22 → Fin 22 → ℝ)
    (decompose : (Fin 6 → ℝ) → ℝ → (Fin 3 → ℝ) × (Fin 3 → Fin 3 → ℝ)) : Fin 27 → ℝ :=
  let log_s : Fin g → ℝ := fun i => Real.log (max (sig i) min_signal)
  let ols_result : Fin 22 → ℝ := fun r => ∑ i, inv_design r i * log_s i
  let W : Fin g → ℝ := fun i => Real.exp (2 * ∑ r, A i r * ols_result r)
  let AT_W_A : Fin 22 → Fin 22 → ℝ := fun r s => ∑ i, A i r * W i * A i s
  let inv_AT_W_A := pinv22 AT_W_A
  let AT_W_LS : Fin 22 → ℝ := fun r => ∑ i, A i r * W i * log_s i
  let wls_result : Fin 22 → ℝ := fun r => ∑ s, inv_AT_W_A r s * AT_W_LS s
  let DT_elements : Fin 6 → ℝ := fun j => wls_result (Fin.castLE (by omega) j)
  let ed := decompose DT_elements min_diffusivity
  let evals := ed.1
  let evecs := ed.2
  let MD_square := ((evals 0 + evals 1 + evals 2) / 3) ^ 2
  let KT_elements : Fin 15 → ℝ := fun j => wls_result ⟨6 + (j : ℕ), by omega⟩ / MD_square
  fun k =>
    if hk : (k : ℕ) < 3 then evals ⟨k, hk⟩
    else if hk2 : (k : ℕ) < 12 then
      evecs ⟨((k : ℕ) - 3) / 3, by omega⟩ ⟨((k : ℕ) - 3) % 3, by omega⟩
    else KT_elements ⟨(k : ℕ) - 12, by omega⟩

/-- The WLS regression solution `wls_result` of line 1270, named so the
claims can refer to it. -/
noncomputable def wls_solution (g : ℕ) (A : Fin g → Fin 22 → ℝ)
    (inv_design : Fin 22 → Fin g → ℝ) (sig : Fin g → ℝ) (min_signal : ℝ)
    (pinv22 : (Fin 22 → Fin 22 → ℝ) → Fin 22 → Fin 22 → ℝ) : Fin 22 → ℝ :=
  let log_s : Fin g → ℝ := fun i => Real.log (max (sig i) min_signal)
  let ols_result : Fin 22 → ℝ := fun r => ∑ i, inv_design r i * log_s i
  let W : Fin g → ℝ := fun i => Real.exp (2 * ∑ r, A i r * ols_result r)
  let AT_W_A : Fin 22 → Fin 22 → ℝ := fun r s => ∑ i, A i r * W i * A i s
  let inv_AT_W_A := pinv22 AT_W_A
  let AT_W_LS : Fin 22 → ℝ := fun r => ∑ i, A i r * W i * log_s i
  fun r => ∑ s, inv_AT_W_A r s * AT_W_LS s

/-- The floored eigenvalues obtained by `_wls_iter` (line 1274). -/
noncomputable def wls_evals (g : ℕ) (A : Fin g → Fin 22 → ℝ)
    (inv_design : Fin 22 → Fin g → ℝ) (sig : Fin g → ℝ)
    (min_signal min_diffusivity : ℝ)
    (pinv22 : (Fin 22 → Fin 22 → ℝ) → Fin 22 → Fin 22 → ℝ)
    (decompose : (Fin 6 → ℝ) → ℝ → (Fin 3 → ℝ) × (Fin 3 → Fin 3 → ℝ)) : Fin 3 → ℝ :=
  (decompose
    (fun j => wls_solution g A inv_design sig min_signal pinv22 (Fin.castLE (by omega) j))
    min_diffusivity).1

/-- The smallest entry of the design matrix, `design_matrix.min()`
(lines 1094, 1211).  (numpy's `min` of an empty array raises; for `g = 0`
this real infimum defaults to `0`, a case outside the claims.) -/
noncomputable def design_min (g : ℕ) (design : Fin g → Fin 22 → ℝ) : ℝ :=
  sInf (Set.range fun p : Fin g × Fin 22 => design p.1 p.2)

/-- `ols_fit_dki(design_matrix, data, min_signal)` (lines 1044-1102):
`tol = 1e-6`; `min_signal <= 0` raises `ValueError('min_signal must be >
0')` before anything else; otherwise `min_diffusivity = tol /
-design_matrix.min()`, the design matrix is pseudo-inverted once (`pinvg`
parameter), and `_ols_iter` is mapped over the voxels. -/
noncomputable def ols_fit_dki (g : ℕ) (design : Fin g → Fin 22 → ℝ)
    (pinvg : (Fin g → Fin 22 → ℝ) → Fin 22 → Fin g → ℝ)
    (decompose : (Fin 6 → ℝ) → ℝ → (Fin 3 → ℝ) × (Fin 3 → Fin 3 → ℝ))
    (data : List (Fin g → ℝ)) (min_signal : ℝ) : Except PyErr (List (Fin 27 → ℝ)) :=
  let tol : ℝ := 1e-6
  if min_signal ≤ 0 then Except.error PyErr.valueError
  else
    let min_diffusivity := tol / -design_min g design
    let inv_design := pinvg design
    Except.ok
      (data.map fun sig => ols_iter g inv_design sig min_signal min_diffusivity decompose)

/-- `wls_fit_dki(design_matrix, data, min_signal)` (lines 1159-1219): same
prelude and guard as `ols_fit_dki`, then `_wls_iter` mapped over the
voxels. -/
noncomputable def wls_fit_dki (g : ℕ) (design : Fin g → Fin 22 → ℝ)
    (pinvg : (Fin g → Fin 22 → ℝ) → Fin 22 → Fin g → ℝ)
    (pinv22 : (Fin 22 → Fin 22 → ℝ) → Fin 22 → Fin 22 → ℝ)
    (decompose : (Fin 6 → ℝ) → ℝ → (Fin 3 → ℝ) × (Fin 3 → Fin 3 → ℝ))
    (data : List (Fin g → ℝ)) (min_signal : ℝ) : Except PyErr (List (Fin 27 → ℝ)) :=
  let tol : ℝ := 1e-6
  if min_signal ≤ 0 then Except.error PyErr.valueError
  else
    let min_diffusivity := tol / -design_min g design
    let inv_design := pinvg design
    Except.ok
      (data.map fun sig =>
        wls_iter g design inv_design sig min_signal min_diffusivity pinv22 decompose)

/-! ### Concrete inputs used by the counterexamples and witnesses -/

/-- The 15-vector (0, 1, 0, ..., 0): only the `Wyyyy` component is set. -/
def ktC2 : Fin 15 → ℚ := fun i => if i = 1 then 1 else 0

/-- The 15-vector (1, 2, ..., 15). -/
def ktC3 : Fin 15 → ℚ := fun i => (i : ℚ) + 1

/-- The 3×3 identity basis. -/
def idBasisQ : Fin 3 → Fin 3 → ℚ := fun i j => if i = j then 1 else 0

/-- Eigenvalues (λ1, λ2, λ3) = (3, 1, 2): strictly positive and
distinct. -/
noncomputable def evC5 : Fin 3 → ℝ := fun i => if i = 0 then 3 else if i = 1 then 1 else 2

/-- Rotated-kurtosis 6-vector (0, 0, 1, 0, 0, 0): only the `Wzzzz`
position (index 2) is set. -/
noncomputable def wC5 : Fin 6 → ℝ := fun i => if i = 2 then 1 else 0

/-! ## Supporting lemmas -/

/-- Every dictionary key evaluated by `Wcons` is present in `indep_ele`:
the lookup never raises `KeyError` and the `getD` default is never
reached. -/
theorem indep_ele_isSome (kt : Fin 15 → ℚ) (i j k l : Fin 3) :
    (indep_ele kt (((i : ℕ) + 1) * ((j : ℕ) + 1) * ((k : ℕ) + 1) * ((l : ℕ) + 1))).isSome :=
  by fin_cases i <;> fin_cases j <;> fin_cases k <;> fin_cases l <;> rfl

theorem dz_of_ne {d : ℝ} (h : d ≠ 0) : dz d = false := by
  simp [dz, h]

theorem dz_of_pos {d : ℝ} (h : 0 < d) : dz d = false := dz_of_ne h.ne'

theorem dz_zero : dz 0 = true := by simp [dz]

theorem d1mach0_pos : 0 < d1mach0 := by
  have h : (0 : ℝ) < (10 : ℝ) ^ (-308 : ℤ) := zpow_pos (by norm_num) _
  unfold d1mach0
  nlinarith

theorem d1mach1_pos : 0 < d1mach1 := by unfold d1mach1; norm_num

theorem d1mach2_pos : 0 < d1mach2 := by
  have h : (0 : ℝ) < (10 : ℝ) ^ (-15 : ℤ) := zpow_pos (by norm_num) _
  unfold d1mach2
  nlinarith

theorem errtol_pos : 0 < errtol := by
  have := d1mach2_pos
  unfold errtol
  exact Real.rpow_pos_of_pos (by positivity) _

theorem tuplim0_pos : 0 < tuplim0 := by
  unfold tuplim0
  exact Real.rpow_pos_of_pos d1mach0_pos _

theorem setupDz_eq_false : setupDz = false := by
  have h1 : (0 : ℝ) < d1mach1 ^ ((2 : ℝ) / 3) := Real.rpow_pos_of_pos d1mach1_pos _
  simp only [setupDz, dz_of_pos h1, dz_of_pos tuplim0_pos,
    dz_of_ne (by norm_num : (3 : ℝ) ≠ 0), dz_of_ne (by norm_num : (14 : ℝ) ≠ 0),
    dz_of_ne (by norm_num : (6 : ℝ) ≠ 0), dz_of_ne (by norm_num : (22 : ℝ) ≠ 0),
    dz_of_ne (by norm_num : (26 : ℝ) ≠ 0), Bool.or_false]

/-- On strictly positive arguments the `rfpython` loop keeps all three
arguments strictly positive, so no evaluated division has a zero
denominator: the accumulated flag is returned unchanged. -/
theorem rfLoop_fst (fuel : ℕ) :
    ∀ (x y z : ℝ) (f : Bool), 0 < x → 0 < y → 0 < z → (rfLoop fuel x y z f).1 = f := by
  induction fuel with
  | zero => intro x y z f _ _ _; rfl
  | succ n ih =>
    intro x y z f hx hy hz
    have hmu : 0 < (x + y + z) / 3 := by positivity
    have hlam : 0 ≤ Real.sqrt x * (Real.sqrt y + Real.sqrt z) + Real.sqrt y * Real.sqrt z := by
      positivity
    rw [rfLoop]
    simp only [dz_of_ne (by norm_num : (3 : ℝ) ≠ 0), dz_of_pos hmu, Bool.or_false]
    split_ifs with h
    · exact ih _ _ _ f (by nlinarith) (by nlinarith) (by nlinarith)
    · simp only [dz_of_pos (Real.sqrt_pos.mpr hmu), Bool.or_false]

/-- Same positivity invariant for the `rdpython` loop: the extra
denominators `znroot*(zn+lamda)` and `mu*sqrt(mu)` are also strictly
positive. -/
theorem rdLoop_fst (fuel : ℕ) :
    ∀ (x y z sigma power4 : ℝ) (f : Bool), 0 < x → 0 < y → 0 < z →
      (rdLoop fuel x y z sigma power4 f).1 = f := by
  induction fuel with
  | zero => intro x y z sigma power4 f _ _ _; rfl
  | succ n ih =>
    intro x y z sigma power4 f hx hy hz
    have hmu : 0 < (x + y + 3 * z) * 0.20 := by positivity
    have hlam : 0 ≤ Real.sqrt x * (Real.sqrt y + Real.sqrt z) + Real.sqrt y * Real.sqrt z := by
      positivity
    have hden : 0 < Real.sqrt z *
        (z + (Real.sqrt x * (Real.sqrt y + Real.sqrt z) + Real.sqrt y * Real.sqrt z)) := by
      have := Real.sqrt_pos.mpr hz
      nlinarith
    rw [rdLoop]
    simp only [dz_of_pos hmu, Bool.or_false]
    split_ifs with h
    · rw [dz_of_pos hden, Bool.or_false]
      exact ih _ _ _ _ _ f (by nlinarith) (by nlinarith) (by nlinarith)
    · have hms : 0 < ((x + y + 3 * z) * 0.20) * Real.sqrt ((x + y + 3 * z) * 0.20) := by
        have := Real.sqrt_pos.mpr hmu
        nlinarith
      simp only [dz_of_pos hms, Bool.or_false]

/-- `rfpython` on strictly positive arguments never evaluates a division
with zero denominator, whatever the fuel. -/
theorem rfpython_fst {x y z : ℝ} (fuel : ℕ) (hx : 0 < x) (hy : 0 < y) (hz : 0 < z) :
    (rfpython fuel x y z).1 = false := by
  rw [rfpython, rfLoop_fst fuel x y z setupDz hx hy hz, setupDz_eq_false]

/-- `rdpython` on strictly positive arguments never evaluates a division
with zero denominator, whatever the fuel. -/
theorem rdpython_fst {x y z : ℝ} (fuel : ℕ) (hx : 0 < x) (hy : 0 < y) (hz : 0 < z) :
    (rdpython fuel x y z).1 = false := by
  rw [rdpython, rdLoop_fst fuel x y z 0 1 setupDz hx hy hz, setupDz_eq_false]

/-- `A2233` on a strictly positive triple never evaluates a division with
zero denominator: every executed denominator (`3(b-c)²`, `sqrt(bc)`, `b`,
`c`, `144c²(a-c)²`, `sqrt(|1-a/c|)` and the elliptic-integral internals)
is nonzero under the respective branch condition. -/
theorem A2233_fst (fuel : ℕ) {a b c : ℝ} (ha : 0 < a) (hb : 0 < b) (hc : 0 < c) :
    (A2233 fuel a b c).1 = false := by
  simp only [A2233]
  split_ifs with h1 h2 h3
  · have hbc : b - c ≠ 0 := sub_ne_zero.mpr h1.2
    have hd : (0 : ℝ) < 3 * (b - c) ^ 2 := by positivity
    have hs : (0 : ℝ) < Real.sqrt (b * c) := Real.sqrt_pos.mpr (mul_pos hb hc)
    have hs3 : (0 : ℝ) < 3 * Real.sqrt (b * c) := by positivity
    simp only [dz_of_ne (by norm_num : (15 : ℝ) ≠ 0), dz_of_pos hd, dz_of_pos hs,
      dz_of_pos hb, dz_of_pos hc, dz_of_pos hs3,
      dz_of_ne (by norm_num : (6 : ℝ) ≠ 0),
      rfpython_fst fuel (div_pos ha hb) (div_pos ha hc) one_pos,
      rdpython_fst fuel (div_pos ha hb) (div_pos ha hc) one_pos,
      Bool.or_false, Bool.false_or]
  · have hac : a ≠ c := fun h => h2.2.2 (h.trans h2.2.1.symm)
    have hd : (0 : ℝ) < 144 * c ^ 2 * (a - c) ^ 2 := by
      have : a - c ≠ 0 := sub_ne_zero.mpr hac
      positivity
    have hdivne : 1 - a / c ≠ 0 := by
      have hne : a / c ≠ 1 := by
        intro h
        rw [div_eq_iff hc.ne', one_mul] at h
        exact hac h
      exact sub_ne_zero.mpr (Ne.symm hne)
    have hsa : (0 : ℝ) < Real.sqrt |1 - a / c| :=
      Real.sqrt_pos.mpr (abs_pos.mpr hdivne)
    simp only [alpha, dz_of_ne (by norm_num : (15 : ℝ) ≠ 0), dz_of_pos hd,
      dz_of_pos hc, dz_of_pos hsa, Bool.or_false]
  · rcases h3 with h | h | h
    · exact absurd ha (not_lt.mpr h)
    · exact absurd hb (not_lt.mpr h)
    · exact absurd hc (not_lt.mpr h)
  · exact dz_of_ne (by norm_num : (15 : ℝ) ≠ 0)

/-- `A2233` with all three eigenvalues equal and positive takes no branch
and returns the isotropic constant `1/15` with no zero-denominator
division. -/
theorem A2233_eq_of_all_eq (fuel : ℕ) {a : ℝ} (ha : 0 < a) :
    A2233 fuel a a a = (false, some (1 / 15)) := by
  simp only [A2233]
  rw [if_neg (by simp), if_neg (by simp), if_neg (by push_neg; exact ⟨ha, ha, ha⟩),
    dz_of_ne (by norm_num : (15 : ℝ) ≠ 0)]

/-- `A1111` with all three eigenvalues equal and positive takes no branch
and returns the isotropic constant `1/5` with no zero-denominator
division. -/
theorem A1111_eq_of_all_eq (fuel : ℕ) {a : ℝ} (ha : 0 < a) :
    A1111 fuel a a a = (false, some (1 / 5)) := by
  simp only [A1111]
  rw [if_neg (by simp), if_neg (by simp), if_neg (by simp),
    if_neg (by push_neg; exact ⟨ha, ha, ha⟩), dz_of_ne (by norm_num : (5 : ℝ) ≠ 0)]

/-- On strictly positive triples, `A1111` evaluates a division with zero
denominator exactly when `a = c` and `a ≠ b`: the general-branch mask of
lines 153 tests only `a != b` and `b != c`, so for `a = c ≠ b` the
general formula (denominator `18(a-b)(a-c) = 0`) is evaluated before the
`indexesxcond3` special case overwrites the value. -/
theorem A1111_fst_iff (fuel : ℕ) {a b c : ℝ} (ha : 0 < a) (hb : 0 < b) (hc : 0 < c) :
    ((A1111 fuel a b c).1 = true ↔ a = c ∧ a ≠ b) := by
  simp only [A1111]
  split_ifs with h1 hac h2 h3 h4
  · -- general branch evaluated and a = c: zero denominator
    have hzero : 18 * (a - b) * (a - c) = 0 := by rw [hac]; ring
    simp only [hzero, dz_zero, Bool.or_true, Bool.true_or]
    simpa using ⟨hac, h1.2.1⟩
  · -- general branch evaluated, a ≠ c: all denominators nonzero
    have hd : 18 * (a - b) * (a - c) ≠ 0 := by
      have h1' : a - b ≠ 0 := sub_ne_zero.mpr h1.2.1
      have h2' : a - c ≠ 0 := sub_ne_zero.mpr hac
      positivity
    have hs3 : (0 : ℝ) < 3 * a * Real.sqrt (b * c) := by
      have := Real.sqrt_pos.mpr (mul_pos hb hc)
      positivity
    simp only [dz_of_ne (by norm_num : (5 : ℝ) ≠ 0), dz_of_ne hd, dz_of_pos ha,
      dz_of_pos hb, dz_of_pos hc, dz_of_pos hs3,
      rfpython_fst fuel (div_pos ha hb) (div_pos ha hc) one_pos,
      rdpython_fst fuel (div_pos ha hb) (div_pos ha hc) one_pos,
      Bool.or_false, Bool.false_or]
    refine iff_of_false (by simp) ?_
    rintro ⟨h, -⟩
    exact absurd h hac
  · -- a = b ≠ c branch: flag comes from A2233(c, a, a), which is clean
    simp only [dz_of_ne (by norm_num : (5 : ℝ) ≠ 0), A2233_fst fuel hc ha ha,
      Bool.or_false, Bool.false_or]
    refine iff_of_false (by simp) ?_
    rintro ⟨-, hab⟩
    exact hab h2.2.1
  · -- cond3 without cond1 is contradictory: b = c together with a = c
    -- forces a = b, against cond3's a ≠ b
    exfalso
    have hbc : b = c := by
      by_contra hbc
      exact h1 ⟨⟨ha, hb, hc⟩, h3.2.2, hbc⟩
    exact h3.2.2 (h3.2.1.trans hbc.symm)
  · rcases h4 with h | h | h
    · exact absurd ha (not_lt.mpr h)
    · exact absurd hb (not_lt.mpr h)
    · exact absurd hc (not_lt.mpr h)
  · -- no branch taken: flag is just the initialisation's `1/5`
    simp only [dz_of_ne (by norm_num : (5 : ℝ) ≠ 0)]
    refine iff_of_false (by simp) ?_
    rintro ⟨hac, hab⟩
    exact h3 ⟨⟨ha, hb, hc⟩, hac, hab⟩

/-- `C2222` on a strictly positive triple never evaluates a division with
zero denominator. -/
theorem C2222_fst {a b c : ℝ} (ha : 0 < a) (hb : 0 < b) (hc : 0 < c) :
    (C2222 a b c).1 = false := by
  simp only [C2222]
  split_ifs with h1 h2
  · have hd1 : (0 : ℝ) < 24 * b ^ 2 := by positivity
    have hd2 : (0 : ℝ) < 18 * b * (b - c) ^ 2 := by
      have : b - c ≠ 0 := sub_ne_zero.mpr h2
      positivity
    have hs : (0 : ℝ) < Real.sqrt (b * c) := Real.sqrt_pos.mpr (mul_pos hb hc)
    simp only [dz_of_pos hd1, dz_of_pos hd2, dz_of_pos hs, Bool.or_false]
  · exact dz_of_pos (by positivity : (0 : ℝ) < 24 * b ^ 2)
  · rfl

/-- `C2233` on a strictly positive triple never evaluates a division with
zero denominator. -/
theorem C2233_fst {a b c : ℝ} (ha : 0 < a) (hb : 0 < b) (hc : 0 < c) :
    (C2233 a b c).1 = false := by
  simp only [C2233]
  split_ifs with h1 h2
  · have hd1 : (0 : ℝ) < 12 * b ^ 2 := by positivity
    have hd2 : (0 : ℝ) < 3 * (b - c) ^ 2 := by
      have : b - c ≠ 0 := sub_ne_zero.mpr h2
      positivity
    have hs : (0 : ℝ) < Real.sqrt (b * c) := Real.sqrt_pos.mpr (mul_pos hb hc)
    simp only [dz_of_pos hd1, dz_of_pos hd2, dz_of_pos hs, Bool.or_false]
  · exact dz_of_pos (by positivity : (0 : ℝ) < 12 * b ^ 2)
  · rfl

/-! ## Claims -/

/-- C1: `mean_kurtosis` does not return the six-term `F1`/`F2`
combination stated in its own docstring; on every input it raises
`TypeError` at `Wxxxx = np.zeros(len(kt), 15)` (line 402), because
`split_dki_param` is an unimplemented stub returning placeholder strings
and `15` is passed where `np.zeros` expects a dtype. -/
theorem C1_mean_kurtosis_always_raises (dki_params : List ℚ) :
    mean_kurtosis dki_params = Except.error PyErr.typeError := rfl

/-- C2: the expand/collapse round trip fails.  Expanding the 15-vector
(0, 1, 0, ..., 0) with `Wcons` and reading back the representative entry
of the `Wyyyy` class (index quadruple (1,1,1,1)) yields `0`, not the
original value `1`: every dictionary entry of `Wcons` maps to
`k_elements[0]`. -/
theorem C2_roundtrip_fails : readback ktC2 1 = 0 ∧ ktC2 1 = 1 := by decide

/-- C3: `Wrotate` with the identity basis does not return the original 15
components; it raises `TypeError` on every call at the loop header
`for e in range(inds)` (line 482), `inds` being a list of index quadruples
rather than an integer. -/
theorem C3_wrotate_always_raises :
    Wrotate ktC3 idBasisQ none = Except.error PyErr.typeError := rfl

/-- C10: every one of the 81 entries of the dense tensor built by `Wcons`
equals the first independent component `kt 0` — the index-product lookup
table maps each of its 15 keys to `k_elements[0]`, so the output is
independent of `kt 1` through `kt 14`. -/
theorem C10_wcons_constant (kt : Fin 15 → ℚ) (i j k l : Fin 3) :
    Wcons kt i j k l = kt 0 := by
  fin_cases i <;> fin_cases j <;> fin_cases k <;> fin_cases l <;> rfl

/-- C4 (amended): `rfpython` and `rdpython` perform no domain validation
and never fail with a `DomainError` — the bound constants `lolim`/`uplim`
are computed and never used, and neither function contains an error path;
on strictly positive (valid) arguments the duplication loop runs without
ever evaluating a division with zero denominator. -/
theorem C4_no_domain_validation (fuel : ℕ) (x y z : ℝ)
    (hx : 0 < x) (hy : 0 < y) (hz : 0 < z) :
    (rfpython fuel x y z).1 = false ∧ (rdpython fuel x y z).1 = false :=
  ⟨rfpython_fst fuel hx hy hz, rdpython_fst fuel hx hy hz⟩

theorem C4_no_domain_validation_witness :
    (0 : ℝ) < 1 ∧ ((rfpython 0 1 1 1).1 = false ∧ (rdpython 0 1 1 1).1 = false) :=
  ⟨by norm_num, C4_no_domain_validation 0 1 1 1 (by norm_num) (by norm_num) (by norm_num)⟩

/-- C4 counterexample: at the invalid input `(-1, -1, -1)` (all arguments
negative), both evaluators return normally instead of failing with a
`DomainError` as the claim requires: the initial deviations are all zero,
the loop exits immediately, and a value is produced. -/
theorem C4_counterexample :
    (rfpython 1 (-1) (-1) (-1)).2.isSome = true
      ∧ (rdpython 1 (-1) (-1) (-1)).2.isSome = true := by
  constructor
  · rw [rfpython, setupDz_eq_false]
    simp only [rfLoop]
    norm_num
    rw [if_neg (not_le.mpr errtol_pos)]
    rfl
  · rw [rdpython, setupDz_eq_false]
    simp only [rdLoop]
    norm_num
    rw [if_neg (not_le.mpr errtol_pos)]
    rfl

/-- C8 (amended): on strictly positive eigenvalue triples, `A2233` (F2),
`C2222` (G1) and `C2233` (G2) never evaluate a division with zero
denominator, and `A1111` (F1) evaluates one exactly when `a = c ≠ b` (its
general-branch mask tests only `a ≠ b` and `b ≠ c`, so that repeated pair
enters the general formula, whose value is then overwritten by the
special branch); when all three eigenvalues are equal `A1111` returns
`1/5` and `A2233` returns `1/15` with no zero-denominator division. -/
theorem C8_degenerate_eigenvalue_handling (fuel : ℕ) (a b c : ℝ)
    (ha : 0 < a) (hb : 0 < b) (hc : 0 < c) :
    ((A1111 fuel a b c).1 = true ↔ a = c ∧ a ≠ b)
      ∧ (A2233 fuel a b c).1 = false
      ∧ (C2222 a b c).1 = false
      ∧ (C2233 a b c).1 = false
      ∧ A1111 fuel a a a = (false, some (1 / 5))
      ∧ A2233 fuel a a a = (false, some (1 / 15)) :=
  ⟨A1111_fst_iff fuel ha hb hc, A2233_fst fuel ha hb hc, C2222_fst ha hb hc,
    C2233_fst ha hb hc, A1111_eq_of_all_eq fuel ha, A2233_eq_of_all_eq fuel ha⟩

theorem C8_degenerate_eigenvalue_handling_witness :
    (0 : ℝ) < 1 ∧
      (((A1111 0 1 1 1).1 = true ↔ (1 : ℝ) = 1 ∧ (1 : ℝ) ≠ 1)
        ∧ (A2233 0 1 1 1).1 = false
        ∧ (C2222 1 1 1).1 = false
        ∧ (C2233 1 1 1).1 = false
        ∧ A1111 0 1 1 1 = (false, some (1 / 5))
        ∧ A2233 0 1 1 1 = (false, some (1 / 15))) :=
  ⟨by norm_num,
    C8_degenerate_eigenvalue_handling 0 1 1 1 (by norm_num) (by norm_num) (by norm_num)⟩

/-- C8 counterexample: at the strictly positive repeated triple
`(a, b, c) = (1, 2, 1)` (two equal eigenvalues, `a = c`), `A1111`
evaluates a division whose denominator `18(a-b)(a-c)` is zero — the claim
that the coefficient functions never do so on such triples is false. -/
theorem C8_counterexample : (A1111 0 1 2 1).1 = true :=
  (A1111_fst_iff 0 (by norm_num) (by norm_num) (by norm_num)).mpr ⟨rfl, by norm_num⟩

/-- C6: both `ols_fit_dki` and `wls_fit_dki` fail with `ValueError`
exactly when `min_signal ≤ 0`; the guard runs before the per-voxel loop,
for every design matrix, pseudo-inverse, decomposition and data list. -/
theorem C6_min_signal_guard (g : ℕ) (design : Fin g → Fin 22 → ℝ)
    (pinvg : (Fin g → Fin 22 → ℝ) → Fin 22 → Fin g → ℝ)
    (pinv22 : (Fin 22 → Fin 22 → ℝ) → Fin 22 → Fin 22 → ℝ)
    (decompose : (Fin 6 → ℝ) → ℝ → (Fin 3 → ℝ) × (Fin 3 → Fin 3 → ℝ))
    (data : List (Fin g → ℝ)) (min_signal : ℝ) :
    (ols_fit_dki g design pinvg decompose data min_signal
        = Except.error PyErr.valueError ↔ min_signal ≤ 0)
      ∧ (wls_fit_dki g design pinvg pinv22 decompose data min_signal
        = Except.error PyErr.valueError ↔ min_signal ≤ 0) := by
  constructor
  · simp only [ols_fit_dki]
    split_ifs with h
    · exact iff_of_true rfl h
    · exact iff_of_false (by simp) h
  · simp only [wls_fit_dki]
    split_ifs with h
    · exact iff_of_true rfl h
    · exact iff_of_false (by simp) h

/-- C7: in both the OLS and the WLS per-voxel fit, output entries 12-26
(the 15 kurtosis coefficients) equal the regression-solution entries 6-20
divided by the square of the mean of the three floored eigenvalues
returned by the (abstracted, externally imported) tensor decomposition. -/
theorem C7_kurtosis_normalization (g : ℕ) (A : Fin g → Fin 22 → ℝ)
    (inv_design : Fin 22 → Fin g → ℝ) (sig : Fin g → ℝ)
    (min_signal min_diffusivity : ℝ)
    (pinv22 : (Fin 22 → Fin 22 → ℝ) → Fin 22 → Fin 22 → ℝ)
    (decompose : (Fin 6 → ℝ) → ℝ → (Fin 3 → ℝ) × (Fin 3 → Fin 3 → ℝ)) (j : Fin 15) :
    ols_iter g inv_design sig min_signal min_diffusivity decompose ⟨12 + (j : ℕ), by omega⟩
        = ols_solution g inv_design sig min_signal ⟨6 + (j : ℕ), by omega⟩
          / evals_mean (ols_evals g inv_design sig min_signal min_diffusivity decompose) ^ 2
      ∧ wls_iter g A inv_design sig min_signal min_diffusivity pinv22 decompose
          ⟨12 + (j : ℕ), by omega⟩
        = wls_solution g A inv_design sig min_signal pinv22 ⟨6 + (j : ℕ), by omega⟩
          / evals_mean (wls_evals g A inv_design sig min_signal min_diffusivity pinv22
              decompose) ^ 2 := by
  have hidx : 12 + (j : ℕ) - 12 = (j : ℕ) := by omega
  constructor
  · simp only [ols_iter, ols_solution, ols_evals, evals_mean]
    rw [dif_neg (by omega), dif_neg (by omega)]
    simp only [hidx]
  · simp only [wls_iter, wls_solution, wls_evals, evals_mean]
    rw [dif_neg (by omega), dif_neg (by omega)]
    simp only [hidx]

/-- C9: `rfpython(1, 1, 1)` returns exactly `1`: the initial normalized
deviations are all zero, so the duplication loop performs no iteration
(any fuel admitting at least one loop-condition check suffices), the
Taylor polynomial evaluates to `1`, and the result is `1/sqrt(1) = 1`
with no zero-denominator division. -/
theorem C9_rf_at_one (fuel : ℕ) : rfpython (fuel + 1) 1 1 1 = (false, some 1) := by
  rw [rfpython, setupDz_eq_false]
  simp only [rfLoop]
  norm_num
  rw [if_neg (not_le.mpr errtol_pos)]
  simp [dz_of_ne (by norm_num : (3 : ℝ) ≠ 0), dz_of_ne (by norm_num : (1 : ℝ) ≠ 0)]

/-- C5: `radial_kurtosis` does not apply `G1` to the element at position 2
(`Wzzzz`): line 682 reads position 1 twice and never position 2.  With
eigenvalues (3, 1, 2) and the rotated-kurtosis vector (0, 0, 1, 0, 0, 0)
the source returns `0`, whereas the combination the claim (and the
function's own documentation) states, `G1(λ1,λ2,λ3)·W[1] +
G1(λ1,λ3,λ2)·W[2] + G2(λ1,λ2,λ3)·W[5]`, is `G1(3,2,1) = 4 - 5/sqrt(2) ≠
0`. -/
theorem C5_radial_kurtosis_wrong_position :
    (radial_kurtosis evC5 wC5).2 = 0 ∧ radial_kurtosis_claimed evC5 wC5 ≠ 0 := by
  have hw1 : wC5 1 = 0 := by simp [wC5]
  have hw2 : wC5 2 = 1 := by simp [wC5]
  have hw5 : wC5 5 = 0 := by simp [wC5]
  have he0 : evC5 0 = 3 := by simp [evC5]
  have he1 : evC5 1 = 1 := by simp [evC5]
  have he2 : evC5 2 = 2 := by simp [evC5]
  constructor
  · simp only [radial_kurtosis, hw1, hw5, mul_zero, add_zero]
  · simp only [radial_kurtosis_claimed, hw1, hw2, hw5, mul_zero, mul_one, add_zero,
      zero_add, he0, he1, he2, G1m]
    simp only [C2222]
    rw [if_pos ⟨by norm_num, by norm_num, by norm_num⟩, if_pos (by norm_num : (2 : ℝ) ≠ 1)]
    have hs2 : Real.sqrt 2 ^ 2 = 2 := Real.sq_sqrt (by norm_num)
    have hsp : 0 < Real.sqrt 2 := Real.sqrt_pos.mpr (by norm_num)
    intro h
    rw [show (2 : ℝ) * 1 = 2 by norm_num] at h
    field_simp at h
    nlinarith [hs2, hsp, h]

end DKI
